import Mathlib

/-!
Verification of the EDA statistical-profiling engine of this repository
(`src/Disease_Prediction_System/src/eda/analyzer.py` and
`src/Disease_Prediction_System/src/eda/outlier_detector.py`).

Numeric cell values are modelled as exact rationals (`ℚ`); statistics whose
definition involves square roots or logarithms (standard deviation based
effect sizes, Pearson correlation, Shannon entropy) live in `ℝ`.
Missing values (pandas `NaN`) are modelled as `Option.none`.
Python operations that raise are modelled with `Except String`.
Opaque statistics-library primitives (scipy's test statistics) are modelled
as function parameters: the code under verification only moves their results
around, so every theorem is stated for an arbitrary such function.
-/

/-- Drop missing values of a column, keeping order (`Series.dropna()`). -/
def dropna (xs : List (Option ℚ)) : List ℚ := xs.filterMap id

/-- Linear-interpolation quantile of a numeric sequence, as computed by
`Series.quantile(p)` with the default `interpolation='linear'`
(numpy "type 7"): on the sorted data `s` of length `n`, the quantile is
`s[⌊h⌋] + (h - ⌊h⌋) * (s[⌊h⌋+1] - s[⌊h⌋])` with `h = p*(n-1)`.
For an empty sequence pandas returns `NaN`, modelled as `none`.
(The ascending value sequence of a rational list is unique, so the choice
of sorting algorithm is immaterial.) -/
def quantile (xs : List ℚ) (p : ℚ) : Option ℚ :=
  match xs with
  | [] => none
  | _ =>
    let s := xs.insertionSort (· ≤ ·)
    let n := xs.length
    let h : ℚ := p * ((n : ℚ) - 1)
    let f : ℕ := (⌊h⌋).toNat
    let lo := s.getD f 0
    let hi := s.getD (min (f + 1) (n - 1)) 0
    some (lo + (h - (f : ℚ)) * (hi - lo))

/-- Outlier test against IQR bounds. pandas evaluates
`(data < lower) | (data > upper)`; comparisons against `NaN` bounds
(empty data) are all `False`, modelled by the catch-all branch. -/
def isOutlier (lower upper : Option ℚ) (x : ℚ) : Bool :=
  match lower, upper with
  | some l, some u => decide (x < l) || decide (u < x)
  | _, _ => false

/-- Python's true division between two numbers: raises `ZeroDivisionError`
when the denominator is `0`. -/
def pydiv (a b : ℚ) : Except String ℚ :=
  if b = 0 then .error "ZeroDivisionError" else .ok (a / b)

namespace OutlierDetector

/-- Per-column result of `outlier_detector.detect_outliers_iqr`
(fields `count`, `percentage`, `lower_bound`, `upper_bound`, `min`, `max`).
Bounds and min/max are `NaN` (here `none`) for an empty column. -/
structure ColResult where
  count : ℕ
  percentage : ℚ
  lower_bound : Option ℚ
  upper_bound : Option ℚ
  minVal : Option ℚ
  maxVal : Option ℚ
deriving DecidableEq

/-- Body of the per-column loop of `outlier_detector.detect_outliers_iqr`
(src/Disease_Prediction_System/src/eda/outlier_detector.py lines 27-43):
drop missing values, derive IQR bounds with multiplier `factor`, flag
values strictly outside the bounds; the percentage is guarded by
`if len(data) > 0 else 0`. -/
def detect_outliers_col (vals : List (Option ℚ)) (factor : ℚ) : ColResult :=
  let data := dropna vals
  let Q1 := quantile data 0.25
  let Q3 := quantile data 0.75
  let IQR : Option ℚ := match Q1, Q3 with
    | some a, some b => some (b - a)
    | _, _ => none
  let lower : Option ℚ := match Q1, IQR with
    | some a, some i => some (a - factor * i)
    | _, _ => none
  let upper : Option ℚ := match Q3, IQR with
    | some a, some i => some (a + factor * i)
    | _, _ => none
  let outliers := data.filter (isOutlier lower upper)
  { count := outliers.length
    percentage := if data.length > 0 then ((outliers.length : ℚ) / data.length) * 100 else 0
    lower_bound := lower
    upper_bound := upper
    minVal := data.min?
    maxVal := data.max? }

end OutlierDetector

namespace EDAnalyzer

/-- Result dict of `EDAnalyzer._detect_outliers_iqr`
(fields `count`, `percentage`, `lower_bound`, `upper_bound`,
`outlier_values`, the latter truncated to the first 10). -/
structure OutlierReport where
  count : ℕ
  percentage : ℚ
  lower_bound : Option ℚ
  upper_bound : Option ℚ
  outlier_values : List ℚ
deriving DecidableEq

/-- `EDAnalyzer._detect_outliers_iqr` (analyzer.py lines 377-393). The input
is the already-dropna'd column. Unlike the standalone detector, the
percentage `(len(outliers) / len(data)) * 100` is NOT guarded, so an empty
input raises `ZeroDivisionError` (Python integer true division by zero). -/
def detect_outliers_iqr (data : List ℚ) : Except String OutlierReport := do
  let Q1 := quantile data 0.25
  let Q3 := quantile data 0.75
  let IQR : Option ℚ := match Q1, Q3 with
    | some a, some b => some (b - a)
    | _, _ => none
  let lower : Option ℚ := match Q1, IQR with
    | some a, some i => some (a - 1.5 * i)
    | _, _ => none
  let upper : Option ℚ := match Q3, IQR with
    | some a, some i => some (a + 1.5 * i)
    | _, _ => none
  let outliers := data.filter (isOutlier lower upper)
  let pct ← pydiv (outliers.length : ℚ) (data.length : ℚ)
  .ok { count := outliers.length
        percentage := pct * 100
        lower_bound := lower
        upper_bound := upper
        outlier_values := outliers.take 10 }

/-- Normality verdict of `EDAnalyzer._test_normality`: either the marker
dict `{'is_normal': None, 'reason': 'Insufficient data'}` (no p-value), or
the verdict with p-value and statistic. -/
inductive NormalityResult
  | insufficient
  | verdict (is_normal : Bool) (p_value statistic : ℚ)
deriving DecidableEq

/-- `EDAnalyzer._test_normality` (analyzer.py lines 395-406), parametrized
by the opaque scipy primitive `normaltest` returning
`(statistic, p_value)`. -/
def test_normality (normaltest : List ℚ → ℚ × ℚ) (data : List ℚ) :
    NormalityResult :=
  if data.length < 8 then .insufficient
  else
    .verdict (decide ((normaltest data).2 > 0.05)) (normaltest data).2
      (normaltest data).1

/-- Pooled standard deviation used for Cohen's d
(analyzer.py line 169): `sqrt((std0**2 + std1**2) / 2)`. -/
noncomputable def pooled_std (s0 s1 : ℝ) : ℝ :=
  Real.sqrt ((s0 ^ 2 + s1 ^ 2) / 2)

/-- Cohen's d (analyzer.py line 170):
`abs(mean0 - mean1) / pooled_std if pooled_std > 0 else 0`. -/
noncomputable def cohens_d (m0 m1 s0 s1 : ℝ) : ℝ :=
  if pooled_std s0 s1 > 0 then |m0 - m1| / pooled_std s0 s1 else 0

/-- `EDAnalyzer._interpret_cohens_d` (analyzer.py lines 413-422). -/
noncomputable def interpret_cohens_d (d : ℝ) : String :=
  if d < 0.2 then "negligible"
  else if d < 0.5 then "small"
  else if d < 0.8 then "medium"
  else "large"

/-- Cramer's V (analyzer.py lines 211-213): with `min_dim =
min(contingency.shape) - 1`, the value is
`sqrt(chi2 / (n * min_dim)) if min_dim > 0 else 0`. -/
noncomputable def cramers_v (chi2 : ℝ) (n : ℕ) (rows cols : ℕ) : ℝ :=
  let min_dim := min rows cols - 1
  if min_dim > 0 then Real.sqrt (chi2 / (n * min_dim)) else 0

/-- `EDAnalyzer._interpret_cramers_v` (analyzer.py lines 424-433). -/
noncomputable def interpret_cramers_v (v : ℝ) : String :=
  if v < 0.1 then "negligible"
  else if v < 0.3 then "small"
  else if v < 0.5 then "medium"
  else "large"

end EDAnalyzer

/-- Numeric column: a named sequence of possibly-missing rational cells. -/
structure NumCol where
  name : String
  values : List (Option ℚ)
deriving DecidableEq

/-- Categorical column: a named sequence of possibly-missing labels. -/
structure CatCol where
  name : String
  values : List (Option String)
deriving DecidableEq

/-- Tagged column (the source distinguishes columns with
`pd.api.types.is_numeric_dtype`). -/
inductive Col
  | num : NumCol → Col
  | cat : CatCol → Col
deriving DecidableEq

/-- Name of a column. -/
def Col.name : Col → String
  | .num c => c.name
  | .cat c => c.name

/-- Number of cells of a column. -/
def Col.length : Col → ℕ
  | .num c => c.values.length
  | .cat c => c.values.length

/-- Number of missing cells of a column (`df[col].isnull().sum()`). -/
def Col.missingCount : Col → ℕ
  | .num c => c.values.countP (·.isNone)
  | .cat c => c.values.countP (·.isNone)

/-- Generic cell contents (numeric or categorical label), used where the
source handles cells regardless of dtype (crosstab, value_counts, unique). -/
def Col.cells : Col → List (Option (ℚ ⊕ String))
  | .num c => c.values.map (fun v => v.map Sum.inl)
  | .cat c => c.values.map (fun v => v.map Sum.inr)

/-- A dataset: an ordered collection of named columns. In a well-formed
frame all columns have the same length. -/
structure DataFrame where
  cols : List Col
deriving DecidableEq

/-- Number of rows, `len(df)`: the common column length (0 when there are
no columns). -/
def DataFrame.nrows (df : DataFrame) : ℕ :=
  match df.cols with
  | [] => 0
  | c :: _ => c.length

/-- Numeric columns in column order
(`df.select_dtypes(include=[np.number]).columns`). -/
def DataFrame.numCols (df : DataFrame) : List NumCol :=
  df.cols.filterMap fun c => match c with | .num nc => some nc | .cat _ => none

/-- Row mask `df['target'] == q`: elementwise comparison of the target
column's cells against the numeric literal `q`. Missing cells (`NaN`) and
categorical (string) cells compare unequal, as in pandas. -/
def Col.numEqMask (c : Col) (q : ℚ) : List Bool :=
  match c with
  | .num nc => nc.values.map (fun v => decide (v = some q))
  | .cat cc => cc.values.map (fun _ => false)

/-- `df[df['target'] == q][col].dropna()` (analyzer.py lines 161-162): the
non-missing values of a feature column restricted to the rows whose target
cell equals the literal `q`. -/
def bivariateGroup (target : Col) (vals : List (Option ℚ)) (q : ℚ) : List ℚ :=
  ((target.numEqMask q).zip vals).filterMap fun p => if p.1 then p.2 else none

/-- `Series.mean()` as an exact rational. pandas returns `NaN` for an empty
series; this model returns the junk value 0 there (no theorem depends on
the empty case, and every threshold comparison against `NaN` in the source
is `False`, as it is against 0 for the thresholds in play). -/
def qmean (xs : List ℚ) : ℚ := xs.sum / xs.length

/-- `Series.median()` (`NaN`, modelled as junk 0, when empty). -/
def qmedian (xs : List ℚ) : ℚ := (quantile xs (1/2)).getD 0

/-- Sample variance with `ddof = 1` (the pandas default for `var`/`std`);
for fewer than two observations pandas yields `NaN` (callers guard). -/
def sampleVar (xs : List ℚ) : ℚ :=
  ((xs.map (fun x => (x - qmean xs) ^ 2)).sum) / ((xs.length : ℚ) - 1)

/-- `Series.std()`: the nonnegative square root of the `ddof = 1` sample
variance, `NaN` (here `none`) for fewer than two observations. -/
noncomputable def sampleStd (xs : List ℚ) : Option ℝ :=
  if xs.length ≤ 1 then none else some (Real.sqrt ((sampleVar xs : ℚ) : ℝ))

/-- `Series.mode()[0] if not mode().empty else None` (analyzer.py line 114):
pandas `mode()` lists the most frequent values in ascending order; the
source takes the first, i.e. the smallest one. -/
def modeQ (xs : List ℚ) : Option ℚ :=
  let m := ((xs.dedup.map (fun v => xs.count v)).max?).getD 0
  ((xs.dedup.filter (fun v => xs.count v == m)).insertionSort (· ≤ ·)).head?

/-- `Series.value_counts()`: occurring values with their counts, most
frequent first (pandas sorts descending by count; the relative order of
ties is irrelevant to every property proved here). -/
def value_counts (xs : List String) : List (String × ℕ) :=
  (xs.dedup.map (fun v => (v, xs.count v))).insertionSort
    (fun a b => b.2 ≥ a.2)

/-- `pd.crosstab(index, columns)`: counts of co-occurring non-missing
pairs, rows indexed by the distinct observed index values and columns by
the distinct observed column values. Only observed categories appear, so
every row and every column of the table has a positive sum. (pandas sorts
the categories; the order is irrelevant to every property proved here.) -/
def crosstab {α β : Type} [DecidableEq α] [DecidableEq β]
    (rvals : List (Option α)) (cvals : List (Option β)) : List (List ℕ) :=
  let pairs := (rvals.zip cvals).filterMap fun p => match p with
    | (some a, some b) => some (a, b)
    | _ => none
  let rs := (pairs.map (·.1)).dedup
  let cs := (pairs.map (·.2)).dedup
  rs.map fun a => cs.map fun b => pairs.count (a, b)

namespace EDAnalyzer

/-- `EDAnalyzer._calculate_entropy` (analyzer.py lines 408-411): Shannon
entropy in bits, `-sum(p_v * log2(p_v))` over the full normalized value
distribution `value_counts(normalize=True)` (the summands are indexed by
the distinct occurring values; summation order is immaterial). -/
noncomputable def calculate_entropy (data : List String) : ℝ :=
  -((data.dedup.map fun v =>
      ((data.count v : ℝ) / data.length) *
        Real.logb 2 ((data.count v : ℝ) / data.length)).sum)

/-- Mean of a real sample. -/
noncomputable def rmean (x : List ℝ) : ℝ := x.sum / x.length

/-- Deviations from the mean. -/
noncomputable def centered (x : List ℝ) : List ℝ := x.map (fun a => a - rmean x)

/-- Sum of squared deviations. -/
noncomputable def ssq (x : List ℝ) : ℝ := ((centered x).map fun a => a * a).sum

/-- Sum of products of paired deviations. -/
noncomputable def covSum (x y : List ℝ) : ℝ :=
  (((centered x).zip (centered y)).map fun p => p.1 * p.2).sum

/-- Pearson correlation of two paired samples,
`Σ(x-x̄)(y-ȳ) / sqrt(Σ(x-x̄)² Σ(y-ȳ)²)`. For a zero-variance column pandas
yields `NaN`; here the quotient is 0 — in both cases the
`|corr| > 0.7` threshold fails, so the high-correlation extraction below
behaves identically. -/
noncomputable def pearsonL (x y : List ℝ) : ℝ :=
  covSum x y / Real.sqrt (ssq x * ssq y)

/-- Pairwise-complete observation extraction of pandas `corr()`: the rows
where both cells are non-missing, cast to the reals. -/
noncomputable def completePairs (xs ys : List (Option ℚ)) : List (ℝ × ℝ) :=
  (xs.zip ys).filterMap fun p => match p with
    | (some a, some b) => some ((a : ℝ), (b : ℝ))
    | _ => none

/-- One entry of `DataFrame.corr()`: pandas computes each pairwise Pearson
correlation over the rows where both cells are non-missing. -/
noncomputable def pearsonPair (xs ys : List (Option ℚ)) : ℝ :=
  pearsonL ((completePairs xs ys).map (fun p => p.1))
    ((completePairs xs ys).map (fun p => p.2))

/-- One entry of the `high_correlations` list (analyzer.py lines 250-254). -/
structure HighCorr where
  feature1 : String
  feature2 : String
  correlation : ℝ

/-- High-correlation pair extraction (analyzer.py lines 245-254): iterate
the upper triangle (`for i in range(k): for j in range(i+1, k)`) of the
correlation matrix and collect the pairs with `abs(corr_val) > 0.7`. -/
noncomputable def high_correlations (cols : List NumCol) : List HighCorr :=
  (List.range cols.length).flatMap fun i =>
    (List.range' (i + 1) (cols.length - (i + 1))).filterMap fun j =>
      if |pearsonPair (cols.getD i ⟨"", []⟩).values
            (cols.getD j ⟨"", []⟩).values| > 0.7 then
        some ⟨(cols.getD i ⟨"", []⟩).name, (cols.getD j ⟨"", []⟩).name,
          pearsonPair (cols.getD i ⟨"", []⟩).values
            (cols.getD j ⟨"", []⟩).values⟩
      else none

end EDAnalyzer

/-- Opaque third-party statistical primitives consumed by the analyzer
(scipy test statistics, sklearn PCA, pandas moment statistics). The
analyzer only transports their numeric results, so every theorem below is
stated for an arbitrary such library. -/
structure StatsLib where
  ttest_vals : List ℚ → List ℚ → ℚ × ℚ
  mannwhitneyu_vals : List ℚ → List ℚ → ℚ × ℚ
  chi2_vals : List (List ℕ) → ℚ × ℚ
  normaltest : List ℚ → ℚ × ℚ
  levene_vals : List (List ℚ) → ℚ × ℚ
  skew : List ℚ → ℚ
  kurt : List ℚ → ℚ
  pca_ratios : List (List ℚ) → List ℚ

/-- `scipy.stats.ttest_ind`: returns `(statistic, p_value)`; on an empty
sample it returns `(nan, nan)` with a warning but does not raise, so it is
modelled as total. -/
def ttest_ind (lib : StatsLib) (g0 g1 : List ℚ) : ℚ × ℚ :=
  lib.ttest_vals g0 g1

/-- `scipy.stats.mannwhitneyu`: its input validation raises `ValueError`
when either sample is empty; otherwise it returns `(statistic, p_value)`. -/
def mannwhitneyu (lib : StatsLib) (g0 g1 : List ℚ) : Except String (ℚ × ℚ) :=
  if g0.isEmpty || g1.isEmpty then
    .error "ValueError: mannwhitneyu requires nonzero-size samples"
  else .ok (lib.mannwhitneyu_vals g0 g1)

/-- `scipy.stats.chi2_contingency`: raises `ValueError` when the internally
computed table of expected frequencies has a zero element, which happens
exactly when some row or column of the observed table sums to zero;
otherwise returns `(chi2, p_value, dof)` with
`dof = (rows - 1) * (cols - 1)`. -/
def chi2_contingency (lib : StatsLib) (table : List (List ℕ)) :
    Except String (ℚ × ℚ × ℕ) :=
  if table.any (fun r => r.sum == 0) ||
      table.transpose.any (fun c => c.sum == 0) then
    .error "ValueError: zero element in expected frequencies"
  else
    .ok ((lib.chi2_vals table).1, (lib.chi2_vals table).2,
      (table.length - 1) * ((table.headD []).length - 1))

namespace EDAnalyzer

/-- One statistical-test entry (statistic, p-value, `significant` iff
`p < 0.05`). -/
structure TestResult where
  statistic : ℚ
  p_value : ℚ
  significant : Bool
deriving DecidableEq

/-- Cohen's d as the source computes it from the two group standard
deviations: pandas `std()` of a group with fewer than two observations is
`NaN` (`none`), the pooled standard deviation is then `NaN`, the
`pooled_std > 0` test is `False`, and the effect size falls back to 0. -/
noncomputable def cohens_d_of_groups (m0 m1 : ℚ) (s0 s1 : Option ℝ) : ℝ :=
  match s0, s1 with
  | some a, some b => cohens_d (m0 : ℝ) (m1 : ℝ) a b
  | _, _ => 0

/-- Result of the numeric branch of `EDAnalyzer._analyze_bivariate`
(analyzer.py lines 159-202). -/
structure BivarNum where
  mean0 : ℚ
  median0 : ℚ
  std0 : Option ℝ
  mean1 : ℚ
  median1 : ℚ
  std1 : Option ℝ
  t_test : TestResult
  mann_whitney : TestResult
  cohens : ℝ
  cohens_interp : String

/-- Result of the categorical branch of `EDAnalyzer._analyze_bivariate`
(analyzer.py lines 203-230). -/
structure BivarCat where
  contingency : List (List ℕ)
  chi_square : TestResult
  dof : ℕ
  cramers : ℝ
  cramers_interp : String

/-- Per-feature bivariate result. -/
inductive BivarResult
  | numeric : BivarNum → BivarResult
  | categorical : BivarCat → BivarResult

/-- Numeric branch of `EDAnalyzer._analyze_bivariate` (analyzer.py lines
159-202): split by the literal target values 0 and 1, run the t-test and
Mann-Whitney U, compute Cohen's d and its interpretation. The uncaught
`ValueError` of `mannwhitneyu` on an empty group propagates. -/
noncomputable def analyze_bivariate_num (lib : StatsLib) (target : Col)
    (nc : NumCol) : Except String BivarNum := do
  let group0 := bivariateGroup target nc.values 0
  let group1 := bivariateGroup target nc.values 1
  let t := ttest_ind lib group0 group1
  let u ← mannwhitneyu lib group0 group1
  let d := cohens_d_of_groups (qmean group0) (qmean group1)
    (sampleStd group0) (sampleStd group1)
  .ok { mean0 := qmean group0
        median0 := qmedian group0
        std0 := sampleStd group0
        mean1 := qmean group1
        median1 := qmedian group1
        std1 := sampleStd group1
        t_test := ⟨t.1, t.2, decide (t.2 < 0.05)⟩
        mann_whitney := ⟨u.1, u.2, decide (u.2 < 0.05)⟩
        cohens := d
        cohens_interp := interpret_cohens_d d }

/-- Categorical branch of `EDAnalyzer._analyze_bivariate` (analyzer.py
lines 203-230): contingency table against the target, chi-square test,
Cramer's V (`n = len(df)`) and its interpretation. An uncaught
`ValueError` of `chi2_contingency` propagates. -/
noncomputable def analyze_bivariate_cat (lib : StatsLib) (nrows : ℕ)
    (target : Col) (cc : CatCol) : Except String BivarCat := do
  let contingency := crosstab cc.values target.cells
  let r ← chi2_contingency lib contingency
  let v := cramers_v (r.1 : ℝ) nrows contingency.length
    (contingency.headD []).length
  .ok { contingency := contingency
        chi_square := ⟨r.1, r.2.1, decide (r.2.1 < 0.05)⟩
        dof := r.2.2
        cramers := v
        cramers_interp := interpret_cramers_v v }

/-- `EDAnalyzer._analyze_bivariate` (analyzer.py lines 147-232): empty
result when no column is named `target`; otherwise one entry per other
column, in column order. A library exception raised for any column aborts
the whole stage (there is no try/except in the source), so no per-column
results survive an error. -/
noncomputable def analyze_bivariate (lib : StatsLib) (df : DataFrame) :
    Except String (List (String × BivarResult)) :=
  match df.cols.find? (fun c => c.name == "target") with
  | none => .ok []
  | some t =>
    (df.cols.filter (fun c => c.name != "target")).mapM fun c =>
      match c with
      | .num nc => do
          let r ← analyze_bivariate_num lib t nc
          .ok (nc.name, BivarResult.numeric r)
      | .cat cc => do
          let r ← analyze_bivariate_cat lib df.nrows t cc
          .ok (cc.name, BivarResult.categorical r)

/-- Statistics block of a numeric univariate profile (analyzer.py lines
111-123). Fields pandas reports as `NaN` on degenerate input (empty
column, single observation) are `Option`-valued or carry the documented
junk value of their defining helper. -/
structure NumStats where
  mean : ℚ
  median : ℚ
  mode : Option ℚ
  std : Option ℝ
  var : ℚ
  minV : Option ℚ
  maxV : Option ℚ
  q1 : Option ℚ
  q3 : Option ℚ

/-- Numeric univariate profile (analyzer.py lines 104-130). `memory_usage`
style bookkeeping and the dtype string are outside the model. -/
structure NumProfile where
  count : ℕ
  missing : ℕ
  missing_pct : ℚ
  statistics : NumStats
  skewness : ℚ
  kurtosis : ℚ
  is_normal : NormalityResult
  outliers : OutlierReport

/-- Categorical univariate profile (analyzer.py lines 131-143). -/
structure CatProfile where
  count : ℕ
  missing : ℕ
  missing_pct : ℚ
  unique_values : ℕ
  top_values : List (String × ℕ)
  entropy : ℝ

/-- Per-column univariate profile. -/
inductive ColProfile
  | numeric : NumProfile → ColProfile
  | categorical : CatProfile → ColProfile

/-- Numeric branch of `EDAnalyzer._analyze_univariate` (analyzer.py lines
104-130). `missing_pct` divides by `len(df)` under numpy semantics (an
empty frame gives `NaN`, never an exception; modelled junk 0, and no
threshold in the source distinguishes the two). The only raising call is
`_detect_outliers_iqr`, whose `ZeroDivisionError` on an all-missing column
propagates. -/
noncomputable def analyze_univariate_num (lib : StatsLib) (nrows : ℕ)
    (nc : NumCol) : Except String NumProfile := do
  let col_data := dropna nc.values
  let out ← detect_outliers_iqr col_data
  .ok { count := col_data.length
        missing := nc.values.countP (·.isNone)
        missing_pct := ((nc.values.countP (·.isNone) : ℚ) / nrows) * 100
        statistics :=
          { mean := qmean col_data
            median := qmedian col_data
            mode := modeQ col_data
            std := sampleStd col_data
            var := sampleVar col_data
            minV := col_data.min?
            maxV := col_data.max?
            q1 := quantile col_data 0.25
            q3 := quantile col_data 0.75 }
        skewness := lib.skew col_data
        kurtosis := lib.kurt col_data
        is_normal := test_normality lib.normaltest col_data
        outliers := out }

/-- Categorical branch of `EDAnalyzer._analyze_univariate` (analyzer.py
lines 131-143): counts, the top-10 value counts, and the Shannon entropy
of the full value distribution. -/
noncomputable def analyze_univariate_cat (nrows : ℕ) (cc : CatCol) :
    CatProfile :=
  let col_data := cc.values.filterMap id
  { count := col_data.length
    missing := cc.values.countP (·.isNone)
    missing_pct := ((cc.values.countP (·.isNone) : ℚ) / nrows) * 100
    unique_values := col_data.dedup.length
    top_values := (value_counts col_data).take 10
    entropy := calculate_entropy col_data }

/-- `EDAnalyzer._analyze_univariate` (analyzer.py lines 97-145): one
profile per column, in column order; an uncaught exception for any column
aborts the stage. -/
noncomputable def analyze_univariate (lib : StatsLib) (df : DataFrame) :
    Except String (List (String × ColProfile)) :=
  df.cols.mapM fun c =>
    match c with
    | .num nc => do
        let p ← analyze_univariate_num lib df.nrows nc
        .ok (nc.name, ColProfile.numeric p)
    | .cat cc => .ok (cc.name, ColProfile.categorical
        (analyze_univariate_cat df.nrows cc))

/-- Overview block (analyzer.py lines 78-95). Memory usage is a property
of the interpreter's object layout and is outside the model. -/
structure Overview where
  rows : ℕ
  columns : ℕ
  complete_rows : ℕ
  complete_percentage : ℚ
  columns_with_missing : List String
deriving DecidableEq

/-- Number of rows with no missing cell in any column
(`len(df.dropna())`). -/
def completeRows (df : DataFrame) : ℕ :=
  (List.range df.nrows).countP fun i =>
    df.cols.all fun c => (c.cells.getD i none).isSome

/-- `EDAnalyzer._analyze_overview` (analyzer.py lines 78-95).
`(len(df.dropna()) / len(df)) * 100` divides two plain Python ints, so a
zero-row frame raises `ZeroDivisionError`. -/
def analyze_overview (df : DataFrame) : Except String Overview := do
  let cr := completeRows df
  let pct ← pydiv (cr : ℚ) (df.nrows : ℚ)
  .ok { rows := df.nrows
        columns := df.cols.length
        complete_rows := cr
        complete_percentage := pct * 100
        columns_with_missing :=
          (df.cols.filter (fun c => c.missingCount > 0)).map Col.name }

/-- PCA sub-result of the multivariate stage (analyzer.py lines 272-276). -/
structure PcaResult where
  explained : List ℚ
  cumulative : List ℚ
  components_needed : ℕ
deriving DecidableEq

/-- Multivariate stage result: the high-correlation list (with the full
correlation matrix, reconstructible from the columns, not duplicated
here), present when there is more than one numeric column, and the PCA
summary, present when there are more than two. -/
structure Multivar where
  high_corr : Option (List HighCorr)
  pca : Option PcaResult

/-- Running prefix sums (`np.cumsum`). -/
def cumsum (l : List ℚ) : List ℚ := (l.scanl (· + ·) 0).tail

/-- `df[numeric_cols].fillna(df[numeric_cols].mean())` for one column:
missing cells replaced by the column mean of the non-missing ones. -/
def fillna_mean (nc : NumCol) : List ℚ :=
  nc.values.map (fun v => v.getD (qmean (dropna nc.values)))

/-- `EDAnalyzer._analyze_multivariate` (analyzer.py lines 234-278).
Correlations are computed when more than one numeric column exists; the
PCA branch (standardization folded into the opaque sklearn primitive)
when more than two. `np.argmax(cumsum >= 0.95)` returns the first index
satisfying the predicate and 0 when none does. -/
noncomputable def analyze_multivariate (lib : StatsLib) (df : DataFrame) :
    Multivar :=
  let ncols := df.numCols
  if 1 < ncols.length then
    { high_corr := some (high_correlations ncols)
      pca :=
        if 2 < ncols.length then
          let ratios := lib.pca_ratios (ncols.map fillna_mean)
          let cum := cumsum ratios
          some ⟨ratios, cum,
            ((cum.findIdx? (fun x => decide ((0.95 : ℚ) ≤ x))).getD 0) + 1⟩
        else none }
  else { high_corr := none, pca := none }

/-- Result of `EDAnalyzer._run_statistical_tests` (analyzer.py lines
280-312): normality entries `(column, statistic, p_value, is_normal)` for
the numeric columns with at least 8 non-missing observations, and the
optional Levene homoscedasticity entry `(statistic, p_value,
equal_variance)`. -/
structure StatTests where
  normality : List (String × ℚ × ℚ × Bool)
  homoscedasticity : Option (ℚ × ℚ × Bool)
deriving DecidableEq

/-- Rows of one column selected where the target cell equals `u`
(`df[df['target'] == i][col].dropna()` for a unique target value `i`;
a missing target value selects nothing, as `NaN == NaN` is `False`). -/
def groupByCell (target : Col) (vals : List (Option ℚ))
    (u : Option (ℚ ⊕ String)) : List ℚ :=
  match u with
  | none => []
  | some uv =>
    (target.cells.zip vals).filterMap fun p =>
      if p.1 == some uv then p.2 else none

/-- `EDAnalyzer._run_statistical_tests` (analyzer.py lines 280-312). The
homoscedasticity branch reuses the leaked loop variable `col` — the LAST
numeric column — and runs Levene only when the group of every unique
target value (missing included) is nonempty. -/
noncomputable def run_statistical_tests (lib : StatsLib) (df : DataFrame) :
    StatTests :=
  let ncols := df.numCols
  let normality := ncols.filterMap fun c =>
    let d := dropna c.values
    if 8 ≤ d.length then
      some (c.name, (lib.normaltest d).1, (lib.normaltest d).2,
        decide ((lib.normaltest d).2 > 0.05))
    else none
  let homo :=
    match df.cols.find? (fun c => c.name == "target") with
    | none => none
    | some t =>
      if 1 < ncols.length then
        let lastCol := ncols.getLastD ⟨"", []⟩
        let groups := t.cells.dedup.map
          (fun u => groupByCell t lastCol.values u)
        if groups.all (fun g => !g.isEmpty) then
          some ((lib.levene_vals groups).1, (lib.levene_vals groups).2,
            decide ((lib.levene_vals groups).2 > 0.05))
        else none
      else none
  { normality := normality, homoscedasticity := homo }

/-- Natural-language insights of `EDAnalyzer._generate_insights`
(analyzer.py lines 314-341), modelled as tagged values in place of the
formatted strings. -/
inductive Insight
  | datasetSize (rows cols : ℕ)
  | missingTotal (n : ℕ)
  | imbalanced (minority_pct : ℚ)
  | skewed (col : String) (skew : ℚ)
deriving DecidableEq

/-- Normalized value distribution of a column,
`value_counts(normalize=True)` over the non-missing cells. -/
def Col.valueDist (c : Col) : List ℚ :=
  let cs := c.cells.filterMap id
  cs.dedup.map (fun v => (cs.count v : ℚ) / cs.length)

/-- `EDAnalyzer._generate_insights` (analyzer.py lines 314-341): dataset
size, total missing count if positive, imbalance warning when the minority
target share is below 30%, and a skewness flag for the first 5 numeric
columns with `|skew| > 1`. The minimum of an empty value distribution is
`NaN` in pandas, failing the `< 30` test; modelled by the `none` branch. -/
noncomputable def generate_insights (lib : StatsLib) (df : DataFrame) :
    List Insight :=
  [Insight.datasetSize df.nrows df.cols.length]
  ++ (let mt := (df.cols.map Col.missingCount).sum
      if 0 < mt then [Insight.missingTotal mt] else [])
  ++ (match df.cols.find? (fun c => c.name == "target") with
      | none => []
      | some t =>
        match (Col.valueDist t).min? with
        | none => []
        | some m => if m * 100 < 30 then [Insight.imbalanced (m * 100)] else [])
  ++ ((df.numCols.take 5).filterMap fun c =>
      let s := lib.skew (dropna c.values)
      if 1 < |s| then some (Insight.skewed c.name s) else none)

end EDAnalyzer

/-- Actionable recommendations of `EDAnalyzer._generate_recommendations`
(analyzer.py lines 343-375), modelled as tagged values in place of the
formatted strings. -/
inductive Recommendation
  | handleMissing (col : String) (pct : ℚ)
  | capOutliers (col : String) (pct : ℚ)
  | scaleColumn (col : String)
  | applySmote
deriving DecidableEq

/-- Missing-value recommendations (analyzer.py lines 347-352): one per
column, in column order, whose missing percentage exceeds 5. The division
is numpy elementwise division (`NaN` for a zero-row frame, which fails the
`> 5` test exactly as the model's junk 0 does). -/
def missing_recs (df : DataFrame) : List Recommendation :=
  df.cols.filterMap fun c =>
    if 5 < ((c.missingCount : ℚ) / df.nrows) * 100 then
      some (.handleMissing c.name (((c.missingCount : ℚ) / df.nrows) * 100))
    else none

/-- Outlier loop of `_generate_recommendations` (analyzer.py lines
354-361), in numeric-column order; the first column on which
`_detect_outliers_iqr` raises aborts the generator. -/
def outlier_recs_go : List NumCol → Except String (List Recommendation)
  | [] => .ok []
  | c :: rest => do
      let rep ← EDAnalyzer.detect_outliers_iqr (dropna c.values)
      let rs ← outlier_recs_go rest
      if 0 < rep.count then
        if 5 < rep.percentage then
          .ok (.capOutliers c.name rep.percentage :: rs)
        else .ok rs
      else .ok rs

/-- Outlier-capping recommendations over the numeric columns. -/
def outlier_recs (df : DataFrame) : Except String (List Recommendation) :=
  outlier_recs_go df.numCols

/-- Scaling recommendations (analyzer.py lines 363-367): numeric columns
with `col_data.std() > 100`. The standard deviation is the nonnegative
square root of the `ddof = 1` sample variance, so the test is decided here
as `variance > 100²` — and is `False` for the `NaN` standard deviation of
a sample with fewer than two observations. -/
def scaling_recs (df : DataFrame) : List Recommendation :=
  df.numCols.filterMap fun c =>
    if 2 ≤ (dropna c.values).length ∧ 10000 < sampleVar (dropna c.values) then
      some (.scaleColumn c.name)
    else none

/-- Class-imbalance recommendation (analyzer.py lines 369-373): emitted
when a target column exists and its minority share is below 0.3 (the
minimum of an empty distribution is `NaN` in pandas and fails the test —
the `none` branch). -/
def imbalance_recs (df : DataFrame) : List Recommendation :=
  match df.cols.find? (fun c => c.name == "target") with
  | none => []
  | some t =>
    match (EDAnalyzer.Col.valueDist t).min? with
    | none => []
    | some m => if m < 0.3 then [.applySmote] else []

namespace EDAnalyzer

/-- `EDAnalyzer._generate_recommendations` (analyzer.py lines 343-375):
missing-value recommendations first, then outlier capping, then scaling,
then class imbalance, truncated to the first 10
(`return recommendations[:10]`). An exception in the outlier loop
propagates out of the generator. -/
def generate_recommendations (df : DataFrame) :
    Except String (List Recommendation) := do
  let orecs ← outlier_recs df
  .ok ((missing_recs df ++ orecs ++ scaling_recs df
    ++ imbalance_recs df).take 10)

/-- Aggregate result of `EDAnalyzer.comprehensive_analysis`. -/
structure AnalysisResults where
  overview : Overview
  univariate : List (String × ColProfile)
  bivariate : List (String × BivarResult)
  multivariate : Multivar
  statistical_tests : StatTests
  insights : List Insight
  recommendations : List Recommendation

/-- Overview stage with the dataset state threaded through: the source
calls only non-mutating pandas operations (no `inplace=True` anywhere), so
the stage hands the dataset on unchanged. -/
def overviewStage (df : DataFrame) : Except String Overview × DataFrame :=
  (analyze_overview df, df)

/-- Univariate stage with the dataset state threaded through. -/
noncomputable def univariateStage (lib : StatsLib) (df : DataFrame) :
    Except String (List (String × ColProfile)) × DataFrame :=
  (analyze_univariate lib df, df)

/-- Bivariate stage with the dataset state threaded through. -/
noncomputable def bivariateStage (lib : StatsLib) (df : DataFrame) :
    Except String (List (String × BivarResult)) × DataFrame :=
  (analyze_bivariate lib df, df)

/-- Multivariate stage with the dataset state threaded through
(`fillna` returns a fresh frame; the input is not written). -/
noncomputable def multivariateStage (lib : StatsLib) (df : DataFrame) :
    Multivar × DataFrame :=
  (analyze_multivariate lib df, df)

/-- Statistical-tests stage with the dataset state threaded through. -/
noncomputable def statisticalStage (lib : StatsLib) (df : DataFrame) :
    StatTests × DataFrame :=
  (run_statistical_tests lib df, df)

/-- Insights stage with the dataset state threaded through. -/
noncomputable def insightsStage (lib : StatsLib) (df : DataFrame) :
    List Insight × DataFrame :=
  (generate_insights lib df, df)

/-- Recommendations stage with the dataset state threaded through. -/
def recommendationsStage (df : DataFrame) :
    Except String (List Recommendation) × DataFrame :=
  (generate_recommendations df, df)

/-- `EDAnalyzer.comprehensive_analysis` (analyzer.py lines 53-76): the
seven stages run in order, each reading the dataset produced by the
previous stage; the Python dict literal evaluates its values left to
right, so the first stage exception (overview, univariate, bivariate or
recommendations — the other stages are total) aborts the analysis. -/
noncomputable def comprehensive_analysis (lib : StatsLib) (df : DataFrame) :
    Except String AnalysisResults × DataFrame :=
  let (o, df1) := overviewStage df
  let (u, df2) := univariateStage lib df1
  let (b, df3) := bivariateStage lib df2
  let (m, df4) := multivariateStage lib df3
  let (s, df5) := statisticalStage lib df4
  let (i, df6) := insightsStage lib df5
  let (r, df7) := recommendationsStage df6
  (do
    let ov ← o
    let uv ← u
    let bv ← b
    let rv ← r
    .ok ⟨ov, uv, bv, m, s, i, rv⟩, df7)

end EDAnalyzer

/-- Category rank of a recommendation in the fixed generation order of the
source: missing-value handling, then outlier capping, then scaling, then
class imbalance. -/
def recCategory : Recommendation → ℕ
  | .handleMissing _ _ => 0
  | .capOutliers _ _ => 1
  | .scaleColumn _ => 2
  | .applySmote => 3

/-- Trivial instantiation of the opaque statistics primitives, used only to
build concrete witnesses. -/
def zeroLib : StatsLib :=
  ⟨fun _ _ => (0, 0), fun _ _ => (0, 0), fun _ => (0, 0), fun _ => (0, 0),
   fun _ => (0, 0), fun _ => 0, fun _ => 0, fun _ => []⟩

/-!  Theorems. -/

/-- Helper: the four-bucket threshold chain shared by the two effect-size
interpreters. -/
theorem bucket_iff (t1 t2 t3 d : ℝ) (h12 : t1 ≤ t2) (h23 : t2 ≤ t3) :
    ((if d < t1 then "negligible" else if d < t2 then "small"
      else if d < t3 then "medium" else "large") = "negligible" ↔ d < t1)
    ∧ ((if d < t1 then "negligible" else if d < t2 then "small"
      else if d < t3 then "medium" else "large") = "small" ↔ t1 ≤ d ∧ d < t2)
    ∧ ((if d < t1 then "negligible" else if d < t2 then "small"
      else if d < t3 then "medium" else "large") = "medium" ↔ t2 ≤ d ∧ d < t3)
    ∧ ((if d < t1 then "negligible" else if d < t2 then "small"
      else if d < t3 then "medium" else "large") = "large" ↔ t3 ≤ d) := by
  rcases lt_or_le d t1 with h1 | h1
  · rw [if_pos h1]
    refine ⟨⟨fun _ => h1, fun _ => rfl⟩,
      ⟨fun h => absurd h (by decide), fun h => absurd h.1 (not_le.mpr h1)⟩,
      ⟨fun h => absurd h (by decide),
        fun h => absurd h.1 (not_le.mpr (lt_of_lt_of_le h1 h12))⟩,
      ⟨fun h => absurd h (by decide),
        fun h => absurd h
          (not_le.mpr (lt_of_lt_of_le h1 (le_trans h12 h23)))⟩⟩
  · rcases lt_or_le d t2 with h2 | h2
    · rw [if_neg (not_lt.mpr h1), if_pos h2]
      refine ⟨⟨fun h => absurd h (by decide), fun h => absurd h1 (not_le.mpr ?_)⟩,
        ⟨fun _ => ⟨h1, h2⟩, fun _ => rfl⟩,
        ⟨fun h => absurd h (by decide), fun h => absurd h.1 (not_le.mpr h2)⟩,
        ⟨fun h => absurd h (by decide),
          fun h => absurd h (not_le.mpr (lt_of_lt_of_le h2 h23))⟩⟩
      exact h
    · rcases lt_or_le d t3 with h3 | h3
      · rw [if_neg (not_lt.mpr h1), if_neg (not_lt.mpr h2), if_pos h3]
        refine ⟨⟨fun h => absurd h (by decide),
            fun h => absurd h1 (not_le.mpr h)⟩,
          ⟨fun h => absurd h (by decide), fun h => absurd h.2 (not_lt.mpr h2)⟩,
          ⟨fun _ => ⟨h2, h3⟩, fun _ => rfl⟩,
          ⟨fun h => absurd h (by decide), fun h => absurd h (not_le.mpr h3)⟩⟩
      · rw [if_neg (not_lt.mpr h1), if_neg (not_lt.mpr h2),
          if_neg (not_lt.mpr h3)]
        refine ⟨⟨fun h => absurd h (by decide),
            fun h => absurd h1 (not_le.mpr h)⟩,
          ⟨fun h => absurd h (by decide),
            fun h => absurd h.2 (not_lt.mpr (le_trans h23 h3))⟩,
          ⟨fun h => absurd h (by decide), fun h => absurd h.2 (not_lt.mpr h3)⟩,
          ⟨fun _ => h3, fun _ => rfl⟩⟩

/-- C3: Cohen's d equals `|mean0 - mean1| / pooled_std` with
`pooled_std = sqrt((std0² + std1²)/2)` (when the pooled standard deviation
is 0 both the guarded source expression and the quotient are 0), it is 0
whenever the pooled standard deviation is 0, and its interpretation is
"negligible" iff `d < 0.2`, "small" iff `0.2 ≤ d < 0.5`, "medium" iff
`0.5 ≤ d < 0.8`, and "large" iff `0.8 ≤ d`. -/
theorem cohens_d_spec (m0 m1 s0 s1 d : ℝ) :
    EDAnalyzer.cohens_d m0 m1 s0 s1
        = |m0 - m1| / Real.sqrt ((s0 ^ 2 + s1 ^ 2) / 2)
    ∧ (EDAnalyzer.pooled_std s0 s1 = 0 → EDAnalyzer.cohens_d m0 m1 s0 s1 = 0)
    ∧ (EDAnalyzer.interpret_cohens_d d = "negligible" ↔ d < 0.2)
    ∧ (EDAnalyzer.interpret_cohens_d d = "small" ↔ 0.2 ≤ d ∧ d < 0.5)
    ∧ (EDAnalyzer.interpret_cohens_d d = "medium" ↔ 0.5 ≤ d ∧ d < 0.8)
    ∧ (EDAnalyzer.interpret_cohens_d d = "large" ↔ 0.8 ≤ d) := by
  have hb := bucket_iff 0.2 0.5 0.8 d (by norm_num) (by norm_num)
  refine ⟨?_, ?_, hb.1, hb.2.1, hb.2.2.1, hb.2.2.2⟩
  · by_cases h : EDAnalyzer.pooled_std s0 s1 > 0
    · rw [EDAnalyzer.cohens_d, if_pos h]
      rfl
    · have h0 : EDAnalyzer.pooled_std s0 s1 = 0 :=
        le_antisymm (not_lt.mp h) (Real.sqrt_nonneg _)
      rw [EDAnalyzer.cohens_d, if_neg h,
        show Real.sqrt ((s0 ^ 2 + s1 ^ 2) / 2) = EDAnalyzer.pooled_std s0 s1
          from rfl, h0, div_zero]
  · intro h0
    rw [EDAnalyzer.cohens_d, if_neg (by rw [h0]; exact lt_irrefl 0)]

/-- Witness for `cohens_d_spec`: at `std0 = std1 = 0` the pooled standard
deviation is 0 and Cohen's d is 0. -/
theorem cohens_d_spec_witness :
    EDAnalyzer.pooled_std 0 0 = 0 ∧ EDAnalyzer.cohens_d 1 0 0 0 = 0 := by
  have hp : EDAnalyzer.pooled_std 0 0 = 0 := by
    rw [EDAnalyzer.pooled_std]
    norm_num
  exact ⟨hp, (cohens_d_spec 1 0 0 0 0).2.1 hp⟩

/-- C4: Cramer's V equals `sqrt(chi2 / (n * (min(rows, cols) - 1)))` when
`min(rows, cols) - 1 > 0`, is 0 when that denominator term is 0, and its
interpretation is "negligible" iff `v < 0.1`, "small" iff `0.1 ≤ v < 0.3`,
"medium" iff `0.3 ≤ v < 0.5`, and "large" iff `0.5 ≤ v`. -/
theorem cramers_v_spec (chi2 : ℝ) (n rows cols : ℕ) (v : ℝ) :
    (0 < min rows cols - 1 →
      EDAnalyzer.cramers_v chi2 n rows cols
        = Real.sqrt (chi2 / ((n * (min rows cols - 1) : ℕ) : ℝ)))
    ∧ (min rows cols - 1 = 0 → EDAnalyzer.cramers_v chi2 n rows cols = 0)
    ∧ (EDAnalyzer.interpret_cramers_v v = "negligible" ↔ v < 0.1)
    ∧ (EDAnalyzer.interpret_cramers_v v = "small" ↔ 0.1 ≤ v ∧ v < 0.3)
    ∧ (EDAnalyzer.interpret_cramers_v v = "medium" ↔ 0.3 ≤ v ∧ v < 0.5)
    ∧ (EDAnalyzer.interpret_cramers_v v = "large" ↔ 0.5 ≤ v) := by
  have hb := bucket_iff 0.1 0.3 0.5 v (by norm_num) (by norm_num)
  refine ⟨?_, ?_, hb.1, hb.2.1, hb.2.2.1, hb.2.2.2⟩
  · intro h
    rw [EDAnalyzer.cramers_v]
    simp only [if_pos h]
    push_cast
    ring_nf
  · intro h
    rw [EDAnalyzer.cramers_v]
    simp only [h]
    simp

/-- Witness for `cramers_v_spec`: a 2×2 table gives the square-root form,
a 1×1 table gives 0. -/
theorem cramers_v_spec_witness :
    (0 < min 2 2 - 1 ∧
      EDAnalyzer.cramers_v 0 4 2 2
        = Real.sqrt ((0 : ℝ) / ((4 * (min 2 2 - 1) : ℕ) : ℝ)))
    ∧ (min 1 3 - 1 = 0 ∧ EDAnalyzer.cramers_v 0 4 1 3 = 0) :=
  ⟨⟨by decide, (cramers_v_spec 0 4 2 2 0).1 (by decide)⟩,
   ⟨by decide, (cramers_v_spec 0 4 1 3 0).2.1 (by decide)⟩⟩

/-- C5: the univariate normality verdict exists only with at least 8
non-missing observations, in which case `is_normal` is `p_value > 0.05`;
below the threshold the result is the explicit insufficient-data marker,
which carries no p-value; and the statistical-tests stage emits a
normality entry exactly for numeric columns with at least 8 non-missing
observations. -/
theorem test_normality_spec (nt : List ℚ → ℚ × ℚ) (data : List ℚ)
    (lib : StatsLib) (df : DataFrame) :
    (data.length < 8 → EDAnalyzer.test_normality nt data
        = EDAnalyzer.NormalityResult.insufficient)
    ∧ (8 ≤ data.length → EDAnalyzer.test_normality nt data
        = EDAnalyzer.NormalityResult.verdict
            (decide ((nt data).2 > 0.05)) (nt data).2 (nt data).1)
    ∧ (∀ e ∈ (EDAnalyzer.run_statistical_tests lib df).normality,
        ∃ c ∈ df.numCols, 8 ≤ (dropna c.values).length ∧
          e = (c.name, (lib.normaltest (dropna c.values)).1,
            (lib.normaltest (dropna c.values)).2,
            decide ((lib.normaltest (dropna c.values)).2 > 0.05))) := by
  refine ⟨?_, ?_, ?_⟩
  · intro h
    rw [EDAnalyzer.test_normality, if_pos h]
  · intro h
    rw [EDAnalyzer.test_normality, if_neg (not_lt.mpr h)]
  · intro e he
    have he2 : e ∈ df.numCols.filterMap fun c =>
        if 8 ≤ (dropna c.values).length then
          some (c.name, (lib.normaltest (dropna c.values)).1,
            (lib.normaltest (dropna c.values)).2,
            decide ((lib.normaltest (dropna c.values)).2 > 0.05))
        else none := he
    rw [List.mem_filterMap] at he2
    obtain ⟨c, hc, hce⟩ := he2
    by_cases h8 : 8 ≤ (dropna c.values).length
    · rw [if_pos h8] at hce
      exact ⟨c, hc, h8, (Option.some_inj.mp hce).symm⟩
    · rw [if_neg h8] at hce
      cases hce

/-- Witness for `test_normality_spec`: an empty column is below the
threshold, an 8-element column is at it. -/
theorem test_normality_spec_witness :
    (([] : List ℚ).length < 8
      ∧ EDAnalyzer.test_normality zeroLib.normaltest []
          = EDAnalyzer.NormalityResult.insufficient)
    ∧ (8 ≤ ([0, 0, 0, 0, 0, 0, 0, 0] : List ℚ).length
      ∧ EDAnalyzer.test_normality zeroLib.normaltest [0, 0, 0, 0, 0, 0, 0, 0]
          = EDAnalyzer.NormalityResult.verdict
              (decide ((zeroLib.normaltest [0, 0, 0, 0, 0, 0, 0, 0]).2 > 0.05))
              (zeroLib.normaltest [0, 0, 0, 0, 0, 0, 0, 0]).2
              (zeroLib.normaltest [0, 0, 0, 0, 0, 0, 0, 0]).1) :=
  ⟨⟨by decide,
    (test_normality_spec zeroLib.normaltest [] zeroLib ⟨[]⟩).1 (by decide)⟩,
   ⟨by decide,
    (test_normality_spec zeroLib.normaltest [0, 0, 0, 0, 0, 0, 0, 0]
      zeroLib ⟨[]⟩).2.1 (by decide)⟩⟩

/-- C2: the standalone IQR outlier detector reports
`percentage = 100 * count / total` and, by its explicit guard, count 0 and
percentage 0 on an empty (all-missing) column instead of dividing by zero;
the analyzer's private `_detect_outliers_iqr`, however, lacks the guard
and raises `ZeroDivisionError` on the empty column — the code-level
divergence this claim records. -/
theorem outlier_percentage_spec (vals : List (Option ℚ)) (factor : ℚ) :
    ((dropna vals).length ≠ 0 →
      (OutlierDetector.detect_outliers_col vals factor).percentage
        = 100 * ((OutlierDetector.detect_outliers_col vals factor).count : ℚ)
            / ((dropna vals).length : ℚ))
    ∧ ((dropna vals).length = 0 →
        (OutlierDetector.detect_outliers_col vals factor).count = 0
        ∧ (OutlierDetector.detect_outliers_col vals factor).percentage = 0)
    ∧ EDAnalyzer.detect_outliers_iqr []
        = Except.error "ZeroDivisionError" := by
  refine ⟨?_, ?_, by rfl⟩
  · intro h
    simp only [OutlierDetector.detect_outliers_col]
    rw [if_pos (Nat.pos_of_ne_zero h)]
    ring
  · intro h
    have hd : dropna vals = [] := List.eq_nil_of_length_eq_zero h
    constructor
    · show (List.filter _ (dropna vals)).length = 0
      rw [hd]
      rfl
    · show (if (dropna vals).length > 0 then _ else _) = 0
      rw [h]
      rfl

/-- Witness for `outlier_percentage_spec`: a one-value column for the
populated branch, an all-missing column for the empty branch. -/
theorem outlier_percentage_spec_witness :
    ((dropna [some (1 : ℚ)]).length ≠ 0
      ∧ (OutlierDetector.detect_outliers_col [some 1] 1.5).percentage
          = 100 * ((OutlierDetector.detect_outliers_col [some 1] 1.5).count : ℚ)
              / ((dropna [some (1 : ℚ)]).length : ℚ))
    ∧ ((dropna ([none] : List (Option ℚ))).length = 0
      ∧ (OutlierDetector.detect_outliers_col [none] 1.5).count = 0
      ∧ (OutlierDetector.detect_outliers_col [none] 1.5).percentage = 0) := by
  refine ⟨⟨by decide, (outlier_percentage_spec [some 1] 1.5).1 (by decide)⟩,
    by decide, ((outlier_percentage_spec [none] 1.5).2.1 (by decide)).1,
    ((outlier_percentage_spec [none] 1.5).2.1 (by decide)).2⟩

/-- Helper: membership in a bivariate group is row-wise selection by
literal equality of the target cell. -/
theorem mem_bivariateGroup (tname : String) (tvals vals : List (Option ℚ))
    (q x : ℚ) :
    x ∈ bivariateGroup (Col.num ⟨tname, tvals⟩) vals q ↔
      ∃ i : ℕ, tvals[i]? = some (some q) ∧ vals[i]? = some (some x) := by
  unfold bivariateGroup Col.numEqMask
  rw [List.mem_filterMap]
  constructor
  · rintro ⟨⟨b, v⟩, hp, hif⟩
    cases b with
    | false => cases hif
    | true =>
      have hv : v = some x := by
        simpa using hif
      obtain ⟨i, hi⟩ := List.mem_iff_getElem?.mp hp
      obtain ⟨hm, hvv⟩ := List.getElem?_zip_eq_some.mp hi
      rw [List.getElem?_map] at hm
      obtain ⟨w, hw, hwb⟩ := Option.map_eq_some'.mp hm
      have hwq : w = some q := of_decide_eq_true hwb
      exact ⟨i, by rw [hw, hwq], by rw [hvv, hv]⟩
  · rintro ⟨i, hti, hvi⟩
    refine ⟨(true, some x), ?_, rfl⟩
    rw [List.mem_iff_getElem?]
    refine ⟨i, List.getElem?_zip_eq_some.mpr ⟨?_, hvi⟩⟩
    rw [List.getElem?_map, hti]
    simp

/-- C10 (amended): for a numeric target column the bivariate groups are
selected by literal equality of the target cell with the number `q`
(instantiated by the source at the literals 0 and 1), and when no target
label equals 0 or 1 — i.e. the outcome is coded by a label pair disjoint
from {0, 1} — both groups are empty, so every group statistic and test
runs on empty sequences. -/
theorem bivariate_group_spec (target : NumCol) (vals : List (Option ℚ))
    (q x : ℚ) :
    (x ∈ bivariateGroup (Col.num target) vals q ↔
      ∃ i : ℕ, target.values[i]? = some (some q) ∧ vals[i]? = some (some x))
    ∧ ((∀ v ∈ target.values, v ≠ some 0 ∧ v ≠ some 1) →
        bivariateGroup (Col.num target) vals 0 = []
        ∧ bivariateGroup (Col.num target) vals 1 = []) := by
  constructor
  · exact mem_bivariateGroup target.name target.values vals q x
  · intro h
    constructor
    · rw [bivariateGroup, List.filterMap_eq_nil_iff]
      rintro ⟨b, v⟩ hp
      have hb := (List.of_mem_zip hp).1
      rw [Col.numEqMask] at hb
      obtain ⟨w, hw, hwb⟩ := List.mem_map.mp hb
      have : b = false := by
        rw [← hwb]
        exact decide_eq_false (h w hw).1
      rw [this]
      rfl
    · rw [bivariateGroup, List.filterMap_eq_nil_iff]
      rintro ⟨b, v⟩ hp
      have hb := (List.of_mem_zip hp).1
      rw [Col.numEqMask] at hb
      obtain ⟨w, hw, hwb⟩ := List.mem_map.mp hb
      have : b = false := by
        rw [← hwb]
        exact decide_eq_false (h w hw).2
      rw [this]
      rfl

/-- C10 counterexample: the claim asserts that for an outcome coded with
any label pair other than (0, 1) both groups are empty; with the realistic
coding {1, 2} the group selected for the literal 1 is nonempty. -/
theorem bivariate_group_counterexample :
    bivariateGroup (Col.num ⟨"target", [some 1, some 2]⟩)
      [some 5, some 6] 1 ≠ [] := by
  simp [bivariateGroup, Col.numEqMask]

/-- Witness for `bivariate_group_spec`: a target coded with the labels
2 and 3 leaves both groups empty. -/
theorem bivariate_group_spec_witness :
    (∀ v ∈ [some (2 : ℚ), some 3], v ≠ some 0 ∧ v ≠ some 1)
    ∧ bivariateGroup (Col.num ⟨"target", [some 2, some 3]⟩)
        [some 5, some 6] 0 = []
    ∧ bivariateGroup (Col.num ⟨"target", [some 2, some 3]⟩)
        [some 5, some 6] 1 = [] := by
  have h : ∀ v ∈ [some (2 : ℚ), some 3], v ≠ some 0 ∧ v ≠ some 1 := by
    intro v hv
    rcases List.mem_cons.mp hv with h2 | hv
    · subst h2
      constructor <;> intro hc <;> rw [Option.some_inj] at hc <;> norm_num at hc
    rcases List.mem_cons.mp hv with h3 | hv
    · subst h3
      constructor <;> intro hc <;> rw [Option.some_inj] at hc <;> norm_num at hc
    cases hv
  have hs := (bivariate_group_spec ⟨"target", [some 2, some 3]⟩
    [some 5, some 6] 0 0).2 h
  exact ⟨h, hs.1, hs.2⟩

/-- C1: at a dataset whose target column contains only the value 0 — so
the group selected for `target == 1` is empty after missing-value
removal — the bivariate stage does not surface a "not computable" marker:
the uncaught scipy `ValueError` propagates and aborts the stage with no
result for ANY column, not even for the categorical column `c` whose own
analysis would succeed. This holds for every instantiation of the
statistics library. -/
theorem bivariate_empty_group_spec (lib : StatsLib) :
    EDAnalyzer.analyze_bivariate lib
      ⟨[Col.num ⟨"target", [some 0, some 0]⟩,
        Col.num ⟨"x", [some 1, some 2]⟩,
        Col.cat ⟨"c", [some "a", some "b"]⟩]⟩
      = Except.error "ValueError: mannwhitneyu requires nonzero-size samples" := by
  rfl

/-- Helper: every successful result of the outlier-recommendation loop
consists of outlier-capping entries only. -/
theorem outlier_recs_go_cat (ncols : List NumCol) (o : List Recommendation)
    (h : outlier_recs_go ncols = .ok o) : ∀ r ∈ o, recCategory r = 1 := by
  induction ncols generalizing o with
  | nil =>
    cases h
    intro r hr
    cases hr
  | cons c rest ih =>
    unfold outlier_recs_go at h
    cases hrep : EDAnalyzer.detect_outliers_iqr (dropna c.values) with
    | error e =>
      rw [hrep] at h
      cases h
    | ok rep =>
      rw [hrep] at h
      cases hrs : outlier_recs_go rest with
      | error e =>
        rw [hrs] at h
        cases h
      | ok rs =>
        rw [hrs] at h
        have hrs2 := ih rs hrs
        simp only [bind, Except.bind] at h
        split at h
        · split at h
          · cases h
            intro r hr
            rcases List.mem_cons.mp hr with h1 | h1
            · rw [h1]
              rfl
            · exact hrs2 r h1
          · cases h
            exact hrs2
        · cases h
          exact hrs2

/-- C6 counterexample: the claim quantifies over every input dataset, but
on a dataset with an all-missing numeric column the recommendation
generator raises (the outlier loop calls the unguarded
`_detect_outliers_iqr`) instead of emitting a recommendation list. -/
theorem generate_recommendations_counterexample :
    EDAnalyzer.generate_recommendations ⟨[Col.num ⟨"x", [none]⟩]⟩
      = Except.error "ZeroDivisionError" := by
  rfl

/-- C6 (amended): whenever the recommendation generator completes — that
is, on every dataset whose numeric columns each keep at least one
non-missing value — its output has at most 10 entries, the entries are
grouped in the fixed category order (missing-value handling, outlier
capping, scaling, class imbalance), and a second call on the same input
yields the identical list. -/
theorem generate_recommendations_spec (df : DataFrame)
    (l : List Recommendation)
    (h : EDAnalyzer.generate_recommendations df = .ok l) :
    l.length ≤ 10
    ∧ (l.map recCategory).Pairwise (· ≤ ·)
    ∧ EDAnalyzer.generate_recommendations df
        = EDAnalyzer.generate_recommendations df := by
  obtain ⟨o, ho, hl⟩ : ∃ o, outlier_recs df = .ok o ∧
      l = (missing_recs df ++ o ++ scaling_recs df
        ++ imbalance_recs df).take 10 := by
    unfold EDAnalyzer.generate_recommendations at h
    cases hoc : outlier_recs df with
    | error e =>
      rw [hoc] at h
      cases h
    | ok oo =>
      rw [hoc] at h
      cases h
      exact ⟨oo, rfl, rfl⟩
  have hm : ∀ r ∈ missing_recs df, recCategory r = 0 := by
    intro r hr
    unfold missing_recs at hr
    obtain ⟨c, _, hc⟩ := List.mem_filterMap.mp hr
    split at hc
    · cases hc
      rfl
    · cases hc
  have ho1 : ∀ r ∈ o, recCategory r = 1 := outlier_recs_go_cat df.numCols o ho
  have hs : ∀ r ∈ scaling_recs df, recCategory r = 2 := by
    intro r hr
    unfold scaling_recs at hr
    obtain ⟨c, _, hc⟩ := List.mem_filterMap.mp hr
    split at hc
    · cases hc
      rfl
    · cases hc
  have hi : ∀ r ∈ imbalance_recs df, recCategory r = 3 := by
    intro r hr
    unfold imbalance_recs at hr
    split at hr
    · cases hr
    · split at hr
      · cases hr
      · split at hr
        · rcases List.mem_singleton.mp hr with rfl
          rfl
        · cases hr
  refine ⟨?_, ?_, rfl⟩
  · rw [hl, List.length_take]
    exact min_le_left _ _
  · rw [hl, List.map_take]
    apply List.Pairwise.sublist (List.take_sublist _ _)
    have Hm : ∀ a ∈ (missing_recs df).map recCategory, a = 0 := by
      intro a ha
      obtain ⟨r, hr, rfl⟩ := List.mem_map.mp ha
      exact hm r hr
    have Ho : ∀ a ∈ o.map recCategory, a = 1 := by
      intro a ha
      obtain ⟨r, hr, rfl⟩ := List.mem_map.mp ha
      exact ho1 r hr
    have Hs : ∀ a ∈ (scaling_recs df).map recCategory, a = 2 := by
      intro a ha
      obtain ⟨r, hr, rfl⟩ := List.mem_map.mp ha
      exact hs r hr
    have Hi : ∀ a ∈ (imbalance_recs df).map recCategory, a = 3 := by
      intro a ha
      obtain ⟨r, hr, rfl⟩ := List.mem_map.mp ha
      exact hi r hr
    simp only [List.map_append, List.pairwise_append, List.mem_append]
    refine ⟨⟨⟨?_, ?_, ?_⟩, ?_, ?_⟩, ?_, ?_⟩
    · exact List.pairwise_of_forall_mem_list
        (fun a ha b hb => by rw [Hm a ha, Hm b hb])
    · exact List.pairwise_of_forall_mem_list
        (fun a ha b hb => by rw [Ho a ha, Ho b hb])
    · intro a ha b hb
      rw [Hm a ha, Ho b hb]
      exact Nat.zero_le 1
    · exact List.pairwise_of_forall_mem_list
        (fun a ha b hb => by rw [Hs a ha, Hs b hb])
    · intro a ha b hb
      rw [Hs b hb]
      rcases ha with ha | ha
      · rw [Hm a ha]
        exact Nat.zero_le 2
      · rw [Ho a ha]
        norm_num
    · exact List.pairwise_of_forall_mem_list
        (fun a ha b hb => by rw [Hi a ha, Hi b hb])
    · intro a ha b hb
      rw [Hi b hb]
      rcases ha with (ha | ha) | ha
      · rw [Hm a ha]
        exact Nat.zero_le 3
      · rw [Ho a ha]
        norm_num
      · rw [Hs a ha]
        norm_num

/-- Witness for `generate_recommendations_spec`: the generator completes
on the empty dataset with the empty recommendation list. -/
theorem generate_recommendations_spec_witness :
    EDAnalyzer.generate_recommendations ⟨[]⟩ = .ok []
    ∧ ([] : List Recommendation).length ≤ 10
    ∧ (([] : List Recommendation).map recCategory).Pairwise (· ≤ ·) := by
  have h : EDAnalyzer.generate_recommendations ⟨[]⟩ = .ok [] := rfl
  exact ⟨h, (generate_recommendations_spec ⟨[]⟩ [] h).1,
    (generate_recommendations_spec ⟨[]⟩ [] h).2.1⟩

/-- C9: each stage of the comprehensive analysis, and the composed
pipeline itself, hands the input dataset on unchanged — in the state
threading of the embedding no stage mutates any cell, column or the shape
of the input table, whatever the statistics library and dataset. -/
theorem comprehensive_analysis_frame (lib : StatsLib) (df : DataFrame) :
    (EDAnalyzer.overviewStage df).2 = df
    ∧ (EDAnalyzer.univariateStage lib df).2 = df
    ∧ (EDAnalyzer.bivariateStage lib df).2 = df
    ∧ (EDAnalyzer.multivariateStage lib df).2 = df
    ∧ (EDAnalyzer.statisticalStage lib df).2 = df
    ∧ (EDAnalyzer.insightsStage lib df).2 = df
    ∧ (EDAnalyzer.recommendationsStage df).2 = df
    ∧ (EDAnalyzer.comprehensive_analysis lib df).2 = df :=
  ⟨rfl, rfl, rfl, rfl, rfl, rfl, rfl, rfl⟩

/-- Helper: the squared-deviation sum is nonnegative. -/
theorem ssq_nonneg (x : List ℝ) : 0 ≤ EDAnalyzer.ssq x := by
  apply List.sum_nonneg
  intro a ha
  obtain ⟨b, _, rfl⟩ := List.mem_map.mp ha
  exact mul_self_nonneg b

/-- Helper: products over a list zipped with its own image. -/
theorem zip_map_self_prod (l : List ℝ) (f : ℝ → ℝ) :
    ((l.zip (l.map f)).map fun p => p.1 * p.2) = l.map (fun a => a * f a) := by
  induction l with
  | nil => rfl
  | cons a t ih => simpa using ih

/-- Helper: the mean scales linearly. -/
theorem rmean_map_mul (x : List ℝ) (c : ℝ) :
    EDAnalyzer.rmean (x.map (fun a => c * a)) = c * EDAnalyzer.rmean x := by
  unfold EDAnalyzer.rmean
  rw [List.length_map,
    show (x.map (fun a => c * a)).sum = c * x.sum from by
      simpa using List.sum_map_mul_left x (fun a => a) c,
    mul_div_assoc]

/-- Helper: centering commutes with scaling. -/
theorem centered_map_mul (x : List ℝ) (c : ℝ) :
    EDAnalyzer.centered (x.map (fun a => c * a))
      = (EDAnalyzer.centered x).map (fun a => c * a) := by
  unfold EDAnalyzer.centered
  rw [rmean_map_mul, List.map_map, List.map_map]
  apply List.map_congr_left
  intro a _
  simp [mul_sub]

/-- Helper: Pearson correlation of a sample with its double is exactly 1
when the squared-deviation sum is positive. -/
theorem pearsonL_double (x : List ℝ) (h : 0 < EDAnalyzer.ssq x) :
    EDAnalyzer.pearsonL x (x.map (fun a => 2 * a)) = 1 := by
  have hc : EDAnalyzer.centered (x.map (fun a => 2 * a))
      = (EDAnalyzer.centered x).map (fun a => 2 * a) := centered_map_mul x 2
  have hcov : EDAnalyzer.covSum x (x.map (fun a => 2 * a))
      = 2 * EDAnalyzer.ssq x := by
    unfold EDAnalyzer.covSum EDAnalyzer.ssq
    rw [hc, zip_map_self_prod]
    have : ((EDAnalyzer.centered x).map fun a => a * (2 * a))
        = (EDAnalyzer.centered x).map fun a => 2 * (a * a) := by
      apply List.map_congr_left
      intro a _
      ring
    rw [this, List.sum_map_mul_left (EDAnalyzer.centered x) (fun a => a * a) 2]
  have hssq : EDAnalyzer.ssq (x.map (fun a => 2 * a))
      = 4 * EDAnalyzer.ssq x := by
    unfold EDAnalyzer.ssq
    rw [hc, List.map_map]
    have : ((fun a => a * a) ∘ fun a => 2 * a)
        = fun a => (4 : ℝ) * (a * a) := by
      funext a
      simp [Function.comp]
      ring
    rw [this, List.sum_map_mul_left (EDAnalyzer.centered x) (fun a => a * a) 4]
  unfold EDAnalyzer.pearsonL
  rw [hcov, hssq]
  have hsq : EDAnalyzer.ssq x * (4 * EDAnalyzer.ssq x)
      = (2 * EDAnalyzer.ssq x) ^ 2 := by ring
  rw [hsq, Real.sqrt_sq (by positivity)]
  exact div_self (by positivity)


/-- Helper: the pairwise-complete extraction of two fully populated
columns casts every row. -/
theorem completePairs_some (xs ys : List ℚ) :
    EDAnalyzer.completePairs (xs.map some) (ys.map some)
      = (xs.zip ys).map (fun p => ((p.1 : ℝ), (p.2 : ℝ))) := by
  induction xs generalizing ys with
  | nil => rfl
  | cons a t ih =>
    cases ys with
    | nil => rfl
    | cons b u => exact congrArg (List.cons ((a : ℝ), (b : ℝ))) (ih u)

/-- Helper: zipping a list with its own image pairs each element with its
image. -/
theorem zip_self_map (xs : List ℚ) (g : ℚ → ℚ) :
    xs.zip (xs.map g) = xs.map (fun a => (a, g a)) := by
  induction xs with
  | nil => rfl
  | cons a t ih => exact congrArg (List.cons (a, g a)) ih

/-- C7: an entry is in the high-correlation list exactly when it arises
from an upper-triangle pair `i < j` of numeric columns whose Pearson
correlation exceeds 0.7 in absolute value (each unordered pair considered
once); and two exactly proportional fully populated columns
(`col_b = 2 * col_a`, with positive squared deviation) have correlation
exactly 1 — hence such a pair appears in the list. -/
theorem high_correlations_spec (cols : List NumCol)
    (e : EDAnalyzer.HighCorr) (xs : List ℚ) :
    (e ∈ EDAnalyzer.high_correlations cols ↔
      ∃ i j : ℕ, i < j ∧ j < cols.length ∧
        0.7 < |EDAnalyzer.pearsonPair (cols.getD i ⟨"", []⟩).values
          (cols.getD j ⟨"", []⟩).values| ∧
        e = ⟨(cols.getD i ⟨"", []⟩).name, (cols.getD j ⟨"", []⟩).name,
          EDAnalyzer.pearsonPair (cols.getD i ⟨"", []⟩).values
            (cols.getD j ⟨"", []⟩).values⟩)
    ∧ (0 < EDAnalyzer.ssq (xs.map (fun (a : ℚ) => (a : ℝ))) →
        EDAnalyzer.pearsonPair (xs.map some)
          ((xs.map (fun a => 2 * a)).map some) = 1) := by
  constructor
  · unfold EDAnalyzer.high_correlations
    rw [List.mem_flatMap]
    constructor
    · rintro ⟨i, hi, hmem⟩
      rw [List.mem_range] at hi
      obtain ⟨j, hj, hfj⟩ := List.mem_filterMap.mp hmem
      rw [List.mem_range'_1] at hj
      split at hfj
      · cases hfj
        exact ⟨i, j, hj.1, by omega, by assumption, rfl⟩
      · cases hfj
    · rintro ⟨i, j, hij, hj, hcorr, he⟩
      refine ⟨i, List.mem_range.mpr (by omega), List.mem_filterMap.mpr
        ⟨j, List.mem_range'_1.mpr ⟨by omega, by omega⟩, ?_⟩⟩
      rw [if_pos hcorr, he]
  · intro h
    unfold EDAnalyzer.pearsonPair
    rw [completePairs_some, zip_self_map]
    simp only [List.map_map]
    have hY : xs.map ((fun p : ℝ × ℝ => p.2)
          ∘ ((fun p : ℚ × ℚ => ((p.1 : ℝ), (p.2 : ℝ)))
            ∘ fun a : ℚ => (a, 2 * a)))
        = (xs.map ((fun p : ℝ × ℝ => p.1)
          ∘ ((fun p : ℚ × ℚ => ((p.1 : ℝ), (p.2 : ℝ)))
            ∘ fun a : ℚ => (a, 2 * a)))).map (fun b : ℝ => 2 * b) := by
      rw [List.map_map]
      apply List.map_congr_left
      intro a _
      show ((2 * a : ℚ) : ℝ) = 2 * (a : ℝ)
      push_cast
      ring
    rw [hY]
    apply pearsonL_double
    exact h

/-- Witness for `high_correlations_spec`: the column [0, 2] has positive
squared deviation and correlates exactly 1 with its double. -/
theorem high_correlations_spec_witness :
    0 < EDAnalyzer.ssq (([0, 2] : List ℚ).map (fun (a : ℚ) => (a : ℝ)))
    ∧ EDAnalyzer.pearsonPair (([0, 2] : List ℚ).map some)
        ((([0, 2] : List ℚ).map (fun a => 2 * a)).map some) = 1 := by
  have h : 0 < EDAnalyzer.ssq (([0, 2] : List ℚ).map (fun (a : ℚ) => (a : ℝ))) := by
    simp [EDAnalyzer.ssq, EDAnalyzer.centered, EDAnalyzer.rmean]
    norm_num
  exact ⟨h, (high_correlations_spec [] ⟨"", "", 0⟩ [0, 2]).2 h⟩

/-- Helper: deduplication does not change the underlying finite set. -/
theorem dedup_toFinset (l : List String) : l.dedup.toFinset = l.toFinset := by
  ext a
  simp [List.mem_toFinset, List.mem_dedup]

/-- Helper: the entropy sum over the distinct values as a `Finset` sum. -/
theorem calculate_entropy_eq_finset_sum (data : List String) :
    EDAnalyzer.calculate_entropy data
      = -(∑ v ∈ data.toFinset,
          ((data.count v : ℝ) / (data.length : ℝ))
            * Real.logb 2 ((data.count v : ℝ) / (data.length : ℝ))) := by
  unfold EDAnalyzer.calculate_entropy
  rw [← List.sum_toFinset _ (List.nodup_dedup data), dedup_toFinset]

/-- Helper: the normalized value distribution sums to 1 for nonempty
data. -/
theorem count_div_length_sum (data : List String) (h : data ≠ []) :
    ∑ v ∈ data.toFinset, ((data.count v : ℝ) / (data.length : ℝ)) = 1 := by
  have hn : (0 : ℝ) < (data.length : ℝ) := by
    exact_mod_cast List.length_pos.mpr h
  have hcount : ∑ v ∈ data.toFinset, ((data.count v : ℝ))
      = (data.length : ℝ) := by
    rw [← dedup_toFinset data, List.sum_toFinset _ (List.nodup_dedup data)]
    rw [show (data.dedup.map fun v => ((data.count v : ℝ)))
        = (data.dedup.map fun v => data.count v).map Nat.cast from by
      rw [List.map_map]; rfl]
    rw [← Nat.cast_list_sum, List.sum_map_count_dedup_eq_length]
  rw [← Finset.sum_div, hcount, div_self (ne_of_gt hn)]

/-- C8: for a nonempty categorical column the Shannon entropy computed
over the full value distribution lies in the closed interval
`[0, log2 u]`, `u` the number of distinct values, and it is 0 exactly when
the column is constant (`u = 1`). -/
theorem calculate_entropy_spec (data : List String) (h : data ≠ []) :
    0 ≤ EDAnalyzer.calculate_entropy data
    ∧ EDAnalyzer.calculate_entropy data
        ≤ Real.logb 2 ((data.dedup.length : ℝ))
    ∧ (EDAnalyzer.calculate_entropy data = 0 ↔ data.dedup.length = 1) := by
  classical
  have hnR : (0 : ℝ) < (data.length : ℝ) := by
    exact_mod_cast List.length_pos.mpr h
  have hppos : ∀ v ∈ data.toFinset,
      0 < (data.count v : ℝ) / (data.length : ℝ) := by
    intro v hv
    have hc : 0 < data.count v := by
      rw [List.count_pos_iff]
      exact List.mem_toFinset.mp hv
    exact div_pos (by exact_mod_cast hc) hnR
  have hple : ∀ v ∈ data.toFinset,
      (data.count v : ℝ) / (data.length : ℝ) ≤ 1 := by
    intro v _
    refine div_le_one_of_le₀ ?_ (le_of_lt hnR)
    exact_mod_cast List.count_le_length v data
  have hterm_nonpos : ∀ v ∈ data.toFinset,
      ((data.count v : ℝ) / (data.length : ℝ))
        * Real.logb 2 ((data.count v : ℝ) / (data.length : ℝ)) ≤ 0 := by
    intro v hv
    have hlog : Real.logb 2 ((data.count v : ℝ) / (data.length : ℝ)) ≤ 0 :=
      Real.logb_nonpos (by norm_num) (le_of_lt (hppos v hv)) (hple v hv)
    calc ((data.count v : ℝ) / (data.length : ℝ))
          * Real.logb 2 ((data.count v : ℝ) / (data.length : ℝ))
        ≤ ((data.count v : ℝ) / (data.length : ℝ)) * 0 :=
          mul_le_mul_of_nonneg_left hlog (le_of_lt (hppos v hv))
      _ = 0 := mul_zero _
  have hsum1 := count_div_length_sum data h
  have hcard : (data.toFinset.card : ℝ) = (data.dedup.length : ℝ) := by
    exact_mod_cast congrArg Nat.cast (List.card_toFinset data)
  have hu_pos : (0 : ℝ) < (data.dedup.length : ℝ) := by
    have : data.dedup ≠ [] := by
      intro hc
      exact h ((List.dedup_eq_nil data).mp hc)
    exact_mod_cast List.length_pos.mpr this
  have hlog2 : (0 : ℝ) < Real.log 2 := Real.log_pos (by norm_num)
  refine ⟨?_, ?_, ?_⟩
  · rw [calculate_entropy_eq_finset_sum]
    have : ∑ v ∈ data.toFinset,
        ((data.count v : ℝ) / (data.length : ℝ))
          * Real.logb 2 ((data.count v : ℝ) / (data.length : ℝ)) ≤ 0 :=
      Finset.sum_nonpos hterm_nonpos
    linarith
  · -- Gibbs: the natural-log entropy is at most the log of the number of
    -- distinct values.
    have key : 0 ≤ ∑ v ∈ data.toFinset,
        ((data.count v : ℝ) / (data.length : ℝ))
          * Real.log ((data.dedup.length : ℝ)
            * ((data.count v : ℝ) / (data.length : ℝ))) := by
      have hterm : ∀ v ∈ data.toFinset,
          ((data.count v : ℝ) / (data.length : ℝ))
              - 1 / (data.dedup.length : ℝ)
            ≤ ((data.count v : ℝ) / (data.length : ℝ))
              * Real.log ((data.dedup.length : ℝ)
                * ((data.count v : ℝ) / (data.length : ℝ))) := by
        intro v hv
        have hp := hppos v hv
        have hup : 0 < (data.dedup.length : ℝ)
            * ((data.count v : ℝ) / (data.length : ℝ)) :=
          mul_pos hu_pos hp
        have hlog : 1 - 1 / ((data.dedup.length : ℝ)
              * ((data.count v : ℝ) / (data.length : ℝ)))
            ≤ Real.log ((data.dedup.length : ℝ)
              * ((data.count v : ℝ) / (data.length : ℝ))) := by
          have hx := Real.log_le_sub_one_of_pos
            (show (0 : ℝ) < ((data.dedup.length : ℝ)
              * ((data.count v : ℝ) / (data.length : ℝ)))⁻¹ by positivity)
          rw [Real.log_inv] at hx
          rw [one_div]
          linarith
        calc ((data.count v : ℝ) / (data.length : ℝ))
              - 1 / (data.dedup.length : ℝ)
            = ((data.count v : ℝ) / (data.length : ℝ))
              * (1 - 1 / ((data.dedup.length : ℝ)
                * ((data.count v : ℝ) / (data.length : ℝ)))) := by
              have hc0 : ((data.count v : ℝ)) ≠ 0 := by
                have hc : 0 < data.count v := by
                  rw [List.count_pos_iff]
                  exact List.mem_toFinset.mp hv
                exact_mod_cast Nat.pos_iff_ne_zero.mp hc
              have hn0 : ((data.length : ℝ)) ≠ 0 := ne_of_gt hnR
              have hu0 : ((data.dedup.length : ℝ)) ≠ 0 := ne_of_gt hu_pos
              field_simp
              ring
          _ ≤ ((data.count v : ℝ) / (data.length : ℝ))
              * Real.log ((data.dedup.length : ℝ)
                * ((data.count v : ℝ) / (data.length : ℝ))) :=
            mul_le_mul_of_nonneg_left hlog (le_of_lt hp)
      have hlhs : ∑ v ∈ data.toFinset,
          (((data.count v : ℝ) / (data.length : ℝ))
            - 1 / (data.dedup.length : ℝ)) = 0 := by
        rw [Finset.sum_sub_distrib, hsum1, Finset.sum_const, nsmul_eq_mul,
          hcard]
        rw [mul_one_div, div_self (ne_of_gt hu_pos)]
        norm_num
      calc (0 : ℝ) = ∑ v ∈ data.toFinset,
            (((data.count v : ℝ) / (data.length : ℝ))
              - 1 / (data.dedup.length : ℝ)) := hlhs.symm
        _ ≤ _ := Finset.sum_le_sum hterm
    have hexpand : ∑ v ∈ data.toFinset,
        ((data.count v : ℝ) / (data.length : ℝ))
          * Real.log ((data.dedup.length : ℝ)
            * ((data.count v : ℝ) / (data.length : ℝ)))
        = Real.log ((data.dedup.length : ℝ))
          + ∑ v ∈ data.toFinset,
            ((data.count v : ℝ) / (data.length : ℝ))
              * Real.log ((data.count v : ℝ) / (data.length : ℝ)) := by
      have : ∀ v ∈ data.toFinset,
          ((data.count v : ℝ) / (data.length : ℝ))
            * Real.log ((data.dedup.length : ℝ)
              * ((data.count v : ℝ) / (data.length : ℝ)))
          = ((data.count v : ℝ) / (data.length : ℝ))
              * Real.log ((data.dedup.length : ℝ))
            + ((data.count v : ℝ) / (data.length : ℝ))
              * Real.log ((data.count v : ℝ) / (data.length : ℝ)) := by
        intro v hv
        rw [Real.log_mul (ne_of_gt hu_pos) (ne_of_gt (hppos v hv)), mul_add]
      rw [Finset.sum_congr rfl this, Finset.sum_add_distrib,
        ← Finset.sum_mul, hsum1, one_mul]
    rw [calculate_entropy_eq_finset_sum]
    rw [← Real.log_div_log]
    have hlogb_sum : ∑ v ∈ data.toFinset,
        ((data.count v : ℝ) / (data.length : ℝ))
          * Real.logb 2 ((data.count v : ℝ) / (data.length : ℝ))
        = (∑ v ∈ data.toFinset,
            ((data.count v : ℝ) / (data.length : ℝ))
              * Real.log ((data.count v : ℝ) / (data.length : ℝ)))
          / Real.log 2 := by
      rw [Finset.sum_div]
      apply Finset.sum_congr rfl
      intro v _
      rw [← Real.log_div_log, mul_div_assoc]
    rw [hlogb_sum]
    rw [neg_div', div_le_div_iff_of_pos_right hlog2]
    linarith
  · constructor
    · intro h0
      rw [calculate_entropy_eq_finset_sum, neg_eq_zero] at h0
      -- each (nonpositive) term vanishes, hence every probability is 1
      have hterms : ∀ v ∈ data.toFinset,
          ((data.count v : ℝ) / (data.length : ℝ))
            * Real.logb 2 ((data.count v : ℝ) / (data.length : ℝ)) = 0 := by
        intro v hv
        by_contra hne
        have hlt : ((data.count v : ℝ) / (data.length : ℝ))
            * Real.logb 2 ((data.count v : ℝ) / (data.length : ℝ)) < 0 :=
          lt_of_le_of_ne (hterm_nonpos v hv) hne
        have hrest : ∑ w ∈ data.toFinset.erase v,
            ((data.count w : ℝ) / (data.length : ℝ))
              * Real.logb 2 ((data.count w : ℝ) / (data.length : ℝ)) ≤ 0 :=
          Finset.sum_nonpos (fun w hw =>
            hterm_nonpos w (Finset.mem_of_mem_erase hw))
        rw [← Finset.add_sum_erase _ _ hv] at h0
        linarith
      have hp1 : ∀ v ∈ data.toFinset,
          ((data.count v : ℝ) / (data.length : ℝ)) = 1 := by
        intro v hv
        have hz := hterms v hv
        rcases mul_eq_zero.mp hz with hc | hlg
        · exact absurd hc (ne_of_gt (hppos v hv))
        · rw [← Real.log_div_log, div_eq_zero_iff] at hlg
          rcases hlg with hlg | hlg
          · rcases Real.log_eq_zero.mp hlg with h1 | h1 | h1
            · exact absurd h1 (ne_of_gt (hppos v hv))
            · exact h1
            · exact absurd h1 (by
                intro hc
                have := hppos v hv
                rw [hc] at this
                norm_num at this)
          · exact absurd hlg (ne_of_gt hlog2)
      have : (data.toFinset.card : ℝ) = 1 := by
        calc (data.toFinset.card : ℝ)
            = ∑ _v ∈ data.toFinset, (1 : ℝ) := by
              rw [Finset.sum_const, nsmul_eq_mul, mul_one]
          _ = ∑ v ∈ data.toFinset,
              ((data.count v : ℝ) / (data.length : ℝ)) :=
            (Finset.sum_congr rfl hp1).symm
          _ = 1 := hsum1
      have hcard1 : data.toFinset.card = 1 := by exact_mod_cast this
      rw [← List.card_toFinset]
      exact hcard1
    · intro h1
      have hcard1 : data.toFinset.card = 1 := by
        rw [List.card_toFinset]
        exact h1
      obtain ⟨a, ha⟩ := Finset.card_eq_one.mp hcard1
      have hpa : ((data.count a : ℝ) / (data.length : ℝ)) = 1 := by
        have := count_div_length_sum data h
        rw [ha, Finset.sum_singleton] at this
        exact this
      rw [calculate_entropy_eq_finset_sum, ha, Finset.sum_singleton, hpa]
      simp

/-- Witness for `calculate_entropy_spec`: a nonempty two-value column. -/
theorem calculate_entropy_spec_witness :
    (["a", "b"] : List String) ≠ []
    ∧ 0 ≤ EDAnalyzer.calculate_entropy ["a", "b"]
    ∧ EDAnalyzer.calculate_entropy ["a", "b"]
        ≤ Real.logb 2 (((["a", "b"] : List String).dedup.length : ℝ))
    ∧ (EDAnalyzer.calculate_entropy ["a", "b"] = 0
        ↔ (["a", "b"] : List String).dedup.length = 1) := by
  have h : (["a", "b"] : List String) ≠ [] := by simp
  exact ⟨h, (calculate_entropy_spec ["a", "b"] h).1,
    (calculate_entropy_spec ["a", "b"] h).2.1,
    (calculate_entropy_spec ["a", "b"] h).2.2⟩
